import Mathlib

/-!
Verification of the reactive field and validation engine of the formengine
repository, against its natural-language specification.

The development shallowly embeds the TypeScript sources:
 - features/validation/utils/validatorsResolver.tsx (byPriority, noOpValidator,
   parse, validatorsResolver);
 - the SimpleField class (constructor guards, setError, dispose, and the
   autorun that swaps the DataValidator).

JavaScript runtime values that matter to the claims are modelled by the
inductive type JSValue (undefined, null, booleans, numbers, strings, opaque
objects).  Thrown exceptions are modelled with Except String.  Console
warnings are modelled as an explicit list of emitted messages.
Array.prototype.sort is modelled by jsSort, the stable insertion sort that
the major engines use for short arrays (the byPriority comparator is not a
consistent comparator, so the ECMAScript standard leaves the result
implementation-defined; jsSort follows the engines: an element is inserted
after every already-placed element that the comparator does not order
strictly after it).
-/

namespace FormEngine

/-- JSValue models the JavaScript runtime values the validation engine
inspects: undefined, null, booleans, numbers, strings and opaque objects
(identified by a numeric id). -/
inductive JSValue where
  | undef
  | vNull
  | vBool (b : Bool)
  | vNum (n : Int)
  | vStr (s : String)
  | vObj (id : Nat)
deriving DecidableEq, Repr

/-- The JavaScript typeof operator, restricted to JSValue. -/
def JSValue.typeof : JSValue → String
  | JSValue.undef => "undefined"
  | JSValue.vNull => "object"
  | JSValue.vBool _ => "boolean"
  | JSValue.vNum _ => "number"
  | JSValue.vStr _ => "string"
  | JSValue.vObj _ => "object"

/-- Truthiness of an optional JavaScript string: undefined and the empty
string are falsy, every other string is truthy.  This models the checks
!model.valued, !model.valueType and !rule.type in the sources. -/
def jsFalsyStr : Option String → Bool
  | none => true
  | some s => s = ""

/-- A JavaScript plain object used as an argument map, modelled as its list
of own enumerable properties in insertion order. -/
abbrev ArgsObj := List (String × JSValue)

/-- Property read on an ArgsObj: the first entry with the key (none models a
missing property, i.e. undefined). -/
def objGet : ArgsObj → String → Option JSValue
  | [], _ => none
  | p :: rest, k => if p.1 = k then some p.2 else objGet rest k

/-- Property assignment on an ArgsObj: if the key is present its value is
replaced in place, otherwise the pair is appended, exactly as JavaScript
property assignment behaves with respect to key order. -/
def objSet (o : ArgsObj) (k : String) (v : JSValue) : ArgsObj :=
  if o.any (fun p => p.1 = k) then
    o.map (fun p => if p.1 = k then (k, v) else p)
  else
    o ++ [(k, v)]

/-- First-defined choice on optional values, mirroring which assignment wins
when the same key is written more than once. -/
def jsOr (a b : Option JSValue) : Option JSValue :=
  match a with
  | some v => some v
  | none => b

/-- The value the key `k` holds after the entries are assigned in order onto
an object: the last entry with that key, if any. -/
def lastAssigned (entries : ArgsObj) (k : String) : Option JSValue :=
  objGet entries.reverse k

/-- jsSort (applied to the reversed accumulator): the new element moves past
every element the comparator orders it strictly before, and stops at the
first element it does not. -/
def jsInsertRev (cmp : α → α → Int) (x : α) : List α → List α
  | [] => [x]
  | y :: ys => if cmp x y < 0 then y :: jsInsertRev cmp x ys else x :: y :: ys

/-- Helper for jsSort: fold the input into a reversed sorted accumulator. -/
def jsSortAux (cmp : α → α → Int) : List α → List α → List α
  | accRev, [] => accRev.reverse
  | accRev, x :: xs => jsSortAux cmp (jsInsertRev cmp x accRev) xs

/-- Model of Array.prototype.sort with a comparator: the stable
insertion sort JavaScript engines use for short arrays (an element is
inserted after all already-placed elements that are not strictly greater
according to the comparator).  For a consistent comparator this agrees with
the ECMAScript specification; byPriority is not consistent, so this pins the
engine behaviour the repository actually runs under. -/
def jsSort (cmp : α → α → Int) (l : List α) : List α :=
  jsSortAux cmp [] l

/-- ValidationRuleParameter from the validation feature: a declared
parameter key with its default value (JSValue.undef models an absent
default). -/
structure ValidationRuleParameter where
  key : String
  default : JSValue
deriving DecidableEq, Repr

/-- ValidationRuleSettings: one declarative validation rule.  type is the
optional registry tag (none = built-in, some "custom" = custom registry),
args the explicit argument object, validateWhen an opaque descriptor of the
conditional-validation predicate (the engine only passes it to
needValidate). -/
structure ValidationRuleSettings where
  key : String
  type : Option String
  args : Option ArgsObj
  validateWhen : Option Nat
deriving DecidableEq, Repr

/-- Return value of a rule validator: either a plain value or a promise of
one (isPromise in the source distinguishes the two; the resolver awaits the
promise case). -/
inductive ValidatorReturn where
  | sync (v : JSValue)
  | promise (v : JSValue)
deriving DecidableEq, Repr

/-- The value a validator invocation settles to: the promise payload when the
return value is awaitable, the value itself otherwise. -/
def awaitedResult : ValidatorReturn → JSValue
  | ValidatorReturn.sync v => v
  | ValidatorReturn.promise v => v

/-- The opaque store handle threaded through validators. -/
abbrev Store := Nat

/-- A form data snapshot, as an arbitrary JavaScript value. -/
abbrev FormData := JSValue

/-- RuleValidator: the executable function implementing one rule, invoked as
validator(value, store, args, formData). -/
abbrev RuleValidator := JSValue → Store → ArgsObj → Option FormData → ValidatorReturn

/-- noOpValidator from validatorsResolver.tsx: always reports success. -/
def noOpValidator : RuleValidator := fun _ _ _ _ => ValidatorReturn.sync (JSValue.vBool true)

/-- A built-in registry entry: a validator factory plus the declared
parameter list. -/
structure BuiltInRule where
  validatorFactory : ArgsObj → RuleValidator
  params : Option (List ValidationRuleParameter)

/-- A custom registry entry: a validate function plus the declared parameter
list. -/
structure CustomRule where
  validate : RuleValidator
  params : Option (List ValidationRuleParameter)

/-- FormViewerValidationRules: the two rule registries.  internal is the
built-in registry; custom is itself optional (validationRules.custom may be
undefined). -/
structure FormViewerValidationRules where
  internal : String → Option BuiltInRule
  custom : Option (String → Option CustomRule)

/-- ValidatorWithSettings: the resolved pairing of settings, executable
validator and declared parameters. -/
structure ValidatorWithSettings where
  settings : ValidationRuleSettings
  validator : RuleValidator
  params : Option (List ValidationRuleParameter)

/-- ValidationResult: a recorded rule failure.  The source declares message
as a string but stores args.message through an unchecked cast, so the model
keeps the raw JSValue. -/
structure ValidationResult where
  settings : ValidationRuleSettings
  message : JSValue
deriving DecidableEq, Repr

/-- byPriority from validatorsResolver.tsx: the comparator ignores its first
argument, orders everything before a second argument keyed "code" and after
a second argument keyed "required". -/
def byPriority (_ : ValidationRuleSettings) (b : ValidationRuleSettings) : Int :=
  if b.key = "code" then -1
  else if b.key = "required" then 1
  else 0

/-- The defaulted parameter entries of a rule: parameters whose default is
defined, as key-default pairs in declaration order (the filter-map pass of
the source loop). -/
def defaultsEntries (params : Option (List ValidationRuleParameter)) : ArgsObj :=
  ((params.getD []).filter (fun p => p.default ≠ JSValue.undef)).map (fun p => (p.key, p.default))

/-- The argument object a validator is invoked with: each declared default is
assigned first, then Object.assign overlays the explicit rule arguments. -/
def buildArgs (params : Option (List ValidationRuleParameter)) (explicitArgs : Option ArgsObj) : ArgsObj :=
  let withDefaults := (defaultsEntries params).foldl (fun o kv => objSet o kv.1 kv.2) []
  (explicitArgs.getD []).foldl (fun o kv => objSet o kv.1 kv.2) withDefaults

/-- The console.warn text emitted for a rule no registry resolves. -/
def cannotFindRuleWarning (rule : ValidationRuleSettings) : String :=
  "Cannot find rule, key: " ++ rule.key ++ ", type: " ++ rule.type.getD "undefined"

/-- toValidator from validatorsResolver.tsx.  The result carries the list of
console warnings the call emits; Except.error models a thrown exception.
When the rule has no (truthy) type the built-in registry is read without a
guard, so a missing key throws a TypeError reading validatorFactory of
undefined.  When the type is "custom" a missing entry falls through to the
warning and the no-op validator, as does any other truthy type. -/
def toValidator (validationRules : FormViewerValidationRules) (rule : ValidationRuleSettings) :
    Except String (ValidatorWithSettings × List String) :=
  if jsFalsyStr rule.type then
    match validationRules.internal rule.key with
    | none => Except.error ("TypeError: cannot read validatorFactory of undefined, key: " ++ rule.key)
    | some definition =>
        Except.ok ({ settings := rule,
                     validator := definition.validatorFactory (rule.args.getD []),
                     params := definition.params }, [])
  else if rule.type = some "custom" then
    match validationRules.custom.bind (fun reg => reg rule.key) with
    | some definition =>
        Except.ok ({ settings := rule, validator := definition.validate, params := definition.params }, [])
    | none =>
        Except.ok ({ settings := rule, validator := noOpValidator, params := none },
                   [cannotFindRuleWarning rule])
  else
    Except.ok ({ settings := rule, validator := noOpValidator, params := none },
               [cannotFindRuleWarning rule])

/-- Sequential map over a list where the function may throw: the first
thrown exception aborts the pass, as rules.map(toValidator) does in
JavaScript. -/
def mapExcept (f : ValidationRuleSettings → Except String (ValidatorWithSettings × List String)) :
    List ValidationRuleSettings → Except String (List (ValidatorWithSettings × List String))
  | [] => Except.ok []
  | r :: rest =>
    match f r with
    | Except.error e => Except.error e
    | Except.ok v =>
      match mapExcept f rest with
      | Except.error e => Except.error e
      | Except.ok vs => Except.ok (v :: vs)

/-- BoundValueSchema: the declarative bundle of validation rules bound to a
value (only the field the resolver reads). -/
structure BoundValueSchema where
  validations : Option (List ValidationRuleSettings)
deriving DecidableEq, Repr

/-- parse from validatorsResolver.tsx: none when the schema is absent, has
no validations array, or the array is empty; otherwise the priority-sorted
rules resolved by toValidator (each paired with the warnings its resolution
emitted). -/
def parse (validationRules : FormViewerValidationRules) (schema : Option BoundValueSchema) :
    Except String (Option (List (ValidatorWithSettings × List String))) :=
  match schema with
  | none => Except.ok none
  | some s =>
    match s.validations with
    | none => Except.ok none
    | some rules =>
      if rules.length = 0 then Except.ok none
      else
        match mapExcept (toValidator validationRules) (jsSort byPriority rules) with
        | Except.error e => Except.error e
        | Except.ok resolved => Except.ok (some resolved)

/-- The needValidate helper the resolver imports (it evaluates the optional
validateWhen descriptor against a form data snapshot); kept abstract as a
function parameter, since its own source file is outside the staged
sources and the claims only condition on its boolean outcome. -/
abbrev NeedValidateFn := Option Nat → Option FormData → Bool

/-- The loop body of the produced validation function, for one resolved
rule: none when the rule is skipped by needValidate or its (awaited) result
is exactly true, otherwise the recorded ValidationResult. -/
def ruleOutcome (needValidate : NeedValidateFn) (value : JSValue) (store : Store)
    (formData : Option FormData) (v : ValidatorWithSettings) : Option ValidationResult :=
  if needValidate v.settings.validateWhen formData = false then none
  else
    let args := buildArgs v.params v.settings.args
    let ruleResult := awaitedResult (v.validator value store args formData)
    if ruleResult = JSValue.vBool true then none
    else some { settings := v.settings,
                message := if ruleResult.typeof = "string" then ruleResult
                           else (objGet args "message").getD JSValue.undef }

/-- The loop of the produced validation function from validatorsResolver.tsx:
for each resolved rule in order, evaluate needValidate (continue when false),
build the argument object, invoke the validator, await the result and push a
ValidationResult when the result is not exactly true. -/
def runValidators (needValidate : NeedValidateFn) (value : JSValue) (store : Store)
    (formData : Option FormData) : List ValidatorWithSettings → List ValidationResult
  | [] => []
  | v :: rest =>
    if needValidate v.settings.validateWhen formData = false then
      runValidators needValidate value store formData rest
    else
      let args := buildArgs v.params v.settings.args
      let ruleResult := awaitedResult (v.validator value store args formData)
      if ruleResult = JSValue.vBool true then
        runValidators needValidate value store formData rest
      else
        { settings := v.settings,
          message := if ruleResult.typeof = "string" then ruleResult
                     else (objGet args "message").getD JSValue.undef }
          :: runValidators needValidate value store formData rest

/-- Instrumented run of the loop: same traversal as runValidators, returning
also the settings of every rule whose validator was actually invoked (the
rules needValidate did not skip), in order. -/
def runValidatorsTr (needValidate : NeedValidateFn) (value : JSValue) (store : Store)
    (formData : Option FormData) :
    List ValidatorWithSettings → List ValidationResult × List ValidationRuleSettings
  | [] => ([], [])
  | v :: rest =>
    if needValidate v.settings.validateWhen formData = false then
      runValidatorsTr needValidate value store formData rest
    else
      let args := buildArgs v.params v.settings.args
      let ruleResult := awaitedResult (v.validator value store args formData)
      let t := runValidatorsTr needValidate value store formData rest
      ((if ruleResult = JSValue.vBool true then t.1
        else { settings := v.settings,
               message := if ruleResult.typeof = "string" then ruleResult
                          else (objGet args "message").getD JSValue.undef } :: t.1),
       v.settings :: t.2)

/-- validatorsResolver applied to its inputs: parse once, then the produced
async function on (value, store, formData).  A thrown resolution is
Except.error; the produced function resolves to none (undefined) when parse
produced no validators, otherwise to the accumulated results, paired with
the warnings resolution emitted. -/
def resolverRun (needValidate : NeedValidateFn) (validationRules : FormViewerValidationRules)
    (schema : Option BoundValueSchema) (value : JSValue) (store : Store)
    (formData : Option FormData) :
    Except String (Option (List ValidationResult) × List String) :=
  match parse validationRules schema with
  | Except.error e => Except.error e
  | Except.ok none => Except.ok (none, [])
  | Except.ok (some resolved) =>
      Except.ok (some (runValidators needValidate value store formData (resolved.map Prod.fst)),
                 (resolved.map Prod.snd).flatten)

/-- setError from the SimpleField class: store a string, normalize undefined
and null to undefined (none), and throw for any other runtime value.  The
result is the new content of the error property when no exception is
thrown. -/
def setError (error : JSValue) : Except String (Option String) :=
  match error with
  | JSValue.vStr s => Except.ok (some s)
  | JSValue.undef => Except.ok none
  | JSValue.vNull => Except.ok none
  | e => Except.error ("Expected string or undefined or null type, got " ++ e.typeof)

/-- The slice of the component model the SimpleField constructor guards
read: the bound key (valued) and the value type, each possibly undefined. -/
structure Model where
  valued : Option String
  valueType : Option String
deriving DecidableEq, Repr

/-- The observable part a successful SimpleField construction establishes
for the guarded fields. -/
structure ConstructedField where
  valued : String
  valueType : String
deriving DecidableEq, Repr

/-- The constructor stages relevant to the guard claims, in source order:
the two throw guards, makeAutoObservable, the synchronous value seeding, and
the registration of the disposers (autorun and reaction). -/
inductive CtorStep where
  | checkValued
  | checkValueType
  | makeObservable
  | seedValue
  | registerDisposers
deriving DecidableEq, Repr

/-- The SimpleField constructor on the guarded fields: the check on
model.valued throws first, then the check on model.valueType, and only then
is the field populated (JavaScript truthiness: undefined and the empty
string both fail a guard). -/
def constructSimpleField (model : Model) : Except String ConstructedField :=
  if jsFalsyStr model.valued then Except.error "model.valued is falsy"
  else if jsFalsyStr model.valueType then Except.error "model.typeOfValue is undefined"
  else Except.ok { valued := model.valued.getD "", valueType := model.valueType.getD "" }

/-- The constructor stages that execute for a given model: a thrown guard
ends the trace, so reactive wiring and value seeding appear only after both
guards pass. -/
def ctorTrace (model : Model) : List CtorStep :=
  if jsFalsyStr model.valued then [CtorStep.checkValued]
  else if jsFalsyStr model.valueType then [CtorStep.checkValued, CtorStep.checkValueType]
  else [CtorStep.checkValued, CtorStep.checkValueType, CtorStep.makeObservable,
        CtorStep.seedValue, CtorStep.registerDisposers]

/-- Observable events of the validator-recreating autorun, in execution
order: the assignment of the freshly created DataValidator to
this.dataValidator, and the disposal of the previous one, which the source
performs inside an untracked block. -/
inductive VEvent where
  | assign (id : Nat)
  | untrackedDispose (id : Nat)
deriving DecidableEq, Repr

/-- State of the validator-swapping wiring of a SimpleField: the current
dataValidator, the private oldDataValidator, the ids already disposed, the
id the factory hands out next, and the event trace. -/
structure ValidatorWiring where
  dataValidator : Option Nat
  oldDataValidator : Option Nat
  disposed : List Nat
  nextId : Nat
  events : List VEvent
deriving DecidableEq, Repr

/-- The wiring state before the autorun has ever fired. -/
def initialWiring : ValidatorWiring :=
  { dataValidator := none, oldDataValidator := none, disposed := [], nextId := 0, events := [] }

/-- One firing of the setValidator autorun from the SimpleField constructor:
createDataValidator yields a fresh validator which is assigned to
this.dataValidator; then, untracked, the previous validator (held in
oldDataValidator) is disposed and oldDataValidator is set to the current
one.  The event list records the assignment strictly before the disposal. -/
def setValidatorEffect (s : ValidatorWiring) : ValidatorWiring :=
  let v := s.nextId
  let s1 := { s with dataValidator := some v, nextId := v + 1,
                     events := s.events ++ [VEvent.assign v] }
  let s2 :=
    match s1.oldDataValidator with
    | some old => { s1 with disposed := s1.disposed ++ [old],
                            events := s1.events ++ [VEvent.untrackedDispose old] }
    | none => s1
  { s2 with oldDataValidator := s2.dataValidator }

/-- The wiring state after the autorun has fired n times (it fires once
synchronously at construction and again on each dependency change). -/
def fireN : Nat → ValidatorWiring
  | 0 => initialWiring
  | n + 1 => setValidatorEffect (fireN n)

/-- The expected event trace of the first n autorun firings: each firing
appends the assignment of validator k, followed (from the second firing on)
by the untracked disposal of validator k - 1. -/
def eventsUpTo : Nat → List VEvent
  | 0 => []
  | n + 1 =>
    eventsUpTo n ++ (VEvent.assign n ::
      (match n with
       | 0 => []
       | m + 1 => [VEvent.untrackedDispose m]))

/-- Counters of the disposal bookkeeping of a SimpleField.  The two MobX
subscription disposers (autorun and reaction) are idempotent per the MobX
contract: a live flag guards their teardown.  The middle disposer invokes
this.dataValidator?.dispose() each time it runs; the DataValidator class is
outside the staged sources, so only the number of calls into it is
recorded. -/
structure DisposeState where
  autorunDisposerCalls : Nat
  autorunLive : Bool
  autorunTeardowns : Nat
  validatorDisposeCalls : Nat
  reactionDisposerCalls : Nat
  reactionLive : Bool
  reactionTeardowns : Nat
deriving DecidableEq, Repr

/-- The bookkeeping state right after construction: both MobX subscriptions
live, no disposer ever called. -/
def freshDisposeState : DisposeState :=
  { autorunDisposerCalls := 0, autorunLive := true, autorunTeardowns := 0,
    validatorDisposeCalls := 0,
    reactionDisposerCalls := 0, reactionLive := true, reactionTeardowns := 0 }

/-- Calling the disposer the autorun returned: MobX disposers are
idempotent, so the teardown effect runs only while the subscription is
live. -/
def callAutorunDisposer (s : DisposeState) : DisposeState :=
  let s := { s with autorunDisposerCalls := s.autorunDisposerCalls + 1 }
  if s.autorunLive then
    { s with autorunLive := false, autorunTeardowns := s.autorunTeardowns + 1 }
  else s

/-- Calling the second registered disposer, () => this.dataValidator?.dispose().
Modelled from the spec: the DataValidator exposes dispose() with no stated
idempotence, and its source is outside the staged files, so every call is
counted as reaching it. -/
def callValidatorDisposer (s : DisposeState) : DisposeState :=
  { s with validatorDisposeCalls := s.validatorDisposeCalls + 1 }

/-- Calling the disposer the reaction returned: idempotent, like the autorun
disposer. -/
def callReactionDisposer (s : DisposeState) : DisposeState :=
  let s := { s with reactionDisposerCalls := s.reactionDisposerCalls + 1 }
  if s.reactionLive then
    { s with reactionLive := false, reactionTeardowns := s.reactionTeardowns + 1 }
  else s

/-- dispose() from the SimpleField class: this.#disposers.forEach(d => d()),
with the disposers in registration order (autorun disposer, the validator
disposer, reaction disposer).  There is no idempotency guard, so every call
runs the whole list again; the function is total, so no call throws. -/
def fieldDispose (s : DisposeState) : DisposeState :=
  callReactionDisposer (callValidatorDisposer (callAutorunDisposer s))

/-- A registry pair with an empty built-in registry and no custom registry. -/
def emptyRules : FormViewerValidationRules := ⟨fun _ => none, none⟩

/-- A sample built-in registry entry whose factory yields the always-true
validator and declares no parameters. -/
def sampleBuiltIn : BuiltInRule := ⟨fun _ => noOpValidator, none⟩

/-- A sample registry pair: the built-in registry resolves only the key
"required", and the custom registry exists but resolves nothing. -/
def sampleRegistry : FormViewerValidationRules :=
  ⟨fun k => if k = "required" then some sampleBuiltIn else none, some (fun _ => none)⟩

/-- A rule of type "custom" whose key no registry resolves. -/
def missingCustomRule : ValidationRuleSettings := ⟨"missing", some "custom", none, none⟩

/-- An untyped rule keyed "required". -/
def requiredRule : ValidationRuleSettings := ⟨"required", none, none, none⟩

/-- A validator that always fails with a string result. -/
def failingValidator : RuleValidator := fun _ _ _ _ => ValidatorReturn.sync (JSValue.vStr "always fails")

/-- A resolved rule carrying a validateWhen descriptor and a validator that
would fail if it were invoked. -/
def skippedVws : ValidatorWithSettings := ⟨⟨"customCheck", none, none, some 7⟩, failingValidator, none⟩

/-- A resolved rule with no validateWhen descriptor and the always-true
validator. -/
def passingVws : ValidatorWithSettings := ⟨⟨"required", none, none, none⟩, noOpValidator, none⟩

/-- A needValidate model that skips exactly descriptor 7. -/
def nvSkipSeven : NeedValidateFn := fun w _ => w != some 7

/-- Declared parameters with two defined defaults and one undefined one. -/
def overlayParams : List ValidationRuleParameter :=
  [⟨"min", JSValue.vNum 1⟩, ⟨"message", JSValue.vStr "default message"⟩,
   ⟨"skipped", JSValue.undef⟩]

/-- A rule whose explicit args override the declared message default. -/
def overlayRule : ValidationRuleSettings :=
  ⟨"minLength", none, some [("message", JSValue.vStr "explicit message")], none⟩

/-- The resolved pairing for overlayRule. -/
def overlayVws : ValidatorWithSettings := ⟨overlayRule, noOpValidator, some overlayParams⟩

/-- A built-in registry entry whose factory yields the failing validator. -/
def limitBuiltIn : BuiltInRule := ⟨fun _ => failingValidator, none⟩

/-- A registry pair resolving the built-in key "limit" to limitBuiltIn. -/
def vrLimit : FormViewerValidationRules :=
  ⟨fun k => if k = "limit" then some limitBuiltIn else none, none⟩

/-- A rule whose type is defined but is the empty string: JavaScript treats
it as having no type. -/
def emptyTypeRule : ValidationRuleSettings := ⟨"limit", some "", none, none⟩

/-- A rule whose type is defined, non-empty and different from "custom". -/
def otherTypeRule : ValidationRuleSettings := ⟨"whatever", some "server", none, none⟩

/-- jsOr with an empty right alternative is the identity. -/
theorem jsOr_none_right (a : Option JSValue) : jsOr a none = a := by
  cases a <;> rfl

/-- jsOr is associative. -/
theorem jsOr_assoc (a b c : Option JSValue) : jsOr (jsOr a b) c = jsOr a (jsOr b c) := by
  cases a <;> rfl

/-- Reading a concatenated object tries the left entries first. -/
theorem objGet_append (l1 l2 : ArgsObj) (k : String) :
    objGet (l1 ++ l2) k = jsOr (objGet l1 k) (objGet l2 k) := by
  induction l1 with
  | nil => simp [objGet, jsOr]
  | cons p rest ih =>
    by_cases hp : p.1 = k <;> simp [objGet, hp, ih, jsOr]

/-- Replacing the entries of some other key does not change a read. -/
theorem objGet_map_ne (l : ArgsObj) (k k2 : String) (v : JSValue) (h : k2 ≠ k) :
    objGet (l.map (fun p => if p.1 = k2 then (k2, v) else p)) k = objGet l k := by
  induction l with
  | nil => rfl
  | cons p rest ih =>
    by_cases hp : p.1 = k2
    · simp [objGet, hp, h, ih]
    · simp [objGet, hp, ih]

/-- A key no entry holds reads as undefined. -/
theorem objGet_eq_none_of_any_false (l : ArgsObj) (k : String)
    (h : l.any (fun p => p.1 = k) = false) : objGet l k = none := by
  induction l with
  | nil => rfl
  | cons p rest ih =>
    simp only [List.any_cons, Bool.or_eq_false_iff] at h
    have hp : ¬ p.1 = k := by simpa using h.1
    simp [objGet, hp, ih h.2]

/-- Replacing the entries of a key that is present makes it read the new
value. -/
theorem objGet_map_self (l : ArgsObj) (k2 : String) (v : JSValue)
    (h : l.any (fun p => p.1 = k2) = true) :
    objGet (l.map (fun p => if p.1 = k2 then (k2, v) else p)) k2 = some v := by
  induction l with
  | nil => simp at h
  | cons p rest ih =>
    by_cases hp : p.1 = k2
    · simp [objGet, hp]
    · simp only [List.any_cons] at h
      have : rest.any (fun p => p.1 = k2) = true := by
        rcases Bool.or_eq_true_iff.mp h with h1 | h2
        · exact absurd (by simpa using h1) hp
        · exact h2
      simp [objGet, hp, ih this]

/-- Reading after a JavaScript property assignment: the assigned key reads
the new value, every other key is unchanged. -/
theorem objGet_objSet (base : ArgsObj) (k2 : String) (v : JSValue) (k : String) :
    objGet (objSet base k2 v) k = if k2 = k then some v else objGet base k := by
  by_cases hany : base.any (fun p => p.1 = k2) = true
  · rw [objSet, if_pos hany]
    by_cases hk : k2 = k
    · subst hk
      rw [objGet_map_self base k2 v hany]
      simp
    · rw [objGet_map_ne base k k2 v hk]
      simp [hk]
  · rw [objSet, if_neg hany]
    rw [objGet_append]
    by_cases hk : k2 = k
    · subst hk
      rw [objGet_eq_none_of_any_false base k2 (Bool.not_eq_true _ ▸ hany)]
      simp [objGet, jsOr]
    · simp [objGet, hk, jsOr_none_right]

/-- The last assignment of a key wins, entry by entry. -/
theorem lastAssigned_cons (e : String × JSValue) (es : ArgsObj) (k : String) :
    lastAssigned (e :: es) k = jsOr (lastAssigned es k) (if e.1 = k then some e.2 else none) := by
  unfold lastAssigned
  rw [List.reverse_cons, objGet_append]
  congr 1

/-- Folding assignments onto a base object: a read tries the assigned
entries from the last one backwards, then falls back to the base. -/
theorem objGet_foldl_objSet (entries : ArgsObj) (base : ArgsObj) (k : String) :
    objGet (entries.foldl (fun o kv => objSet o kv.1 kv.2) base) k =
      jsOr (lastAssigned entries k) (objGet base k) := by
  induction entries generalizing base with
  | nil => simp [lastAssigned, objGet, jsOr]
  | cons e es ih =>
    rw [List.foldl_cons, ih, objGet_objSet, lastAssigned_cons, jsOr_assoc]
    by_cases he : e.1 = k <;> simp [he, jsOr]

/-- The argument object of a rule reads as: the last explicit argument for
the key if any, else the declared default for the key if defined. -/
theorem objGet_buildArgs (params : Option (List ValidationRuleParameter)) (ex : Option ArgsObj)
    (k : String) :
    objGet (buildArgs params ex) k =
      jsOr (lastAssigned (ex.getD []) k) (lastAssigned (defaultsEntries params) k) := by
  unfold buildArgs
  rw [objGet_foldl_objSet, objGet_foldl_objSet]
  simp [objGet, jsOr_none_right]

/-- The produced validation loop is the filterMap of the per-rule outcome
over the whole resolved list: every rule is visited, failures accumulate in
order, and no failure stops the traversal. -/
theorem runValidators_eq_filterMap (nv : NeedValidateFn) (value : JSValue) (store : Store)
    (fd : Option FormData) (l : List ValidatorWithSettings) :
    runValidators nv value store fd l = l.filterMap (ruleOutcome nv value store fd) := by
  induction l with
  | nil => rfl
  | cons v rest ih =>
    by_cases h : nv v.settings.validateWhen fd = false
    · simp [runValidators, List.filterMap_cons, ruleOutcome, h, ih]
    · by_cases hr : awaitedResult (v.validator value store (buildArgs v.params v.settings.args) fd)
          = JSValue.vBool true
      · simp [runValidators, List.filterMap_cons, ruleOutcome, h, hr, ih]
      · simp [runValidators, List.filterMap_cons, ruleOutcome, h, hr, ih]

/-- The instrumented loop computes the same results as the plain loop. -/
theorem runValidatorsTr_fst (nv : NeedValidateFn) (value : JSValue) (store : Store)
    (fd : Option FormData) (l : List ValidatorWithSettings) :
    (runValidatorsTr nv value store fd l).1 = runValidators nv value store fd l := by
  induction l with
  | nil => rfl
  | cons v rest ih =>
    by_cases h : nv v.settings.validateWhen fd = false
    · simp [runValidatorsTr, runValidators, h, ih]
    · by_cases hr : awaitedResult (v.validator value store (buildArgs v.params v.settings.args) fd)
          = JSValue.vBool true
      · simp [runValidatorsTr, runValidators, h, hr, ih]
      · simp [runValidatorsTr, runValidators, h, hr, ih]

/-- The instrumented loop distributes over concatenation, in both the
results and the invoked-rules components. -/
theorem runValidatorsTr_append (nv : NeedValidateFn) (value : JSValue) (store : Store)
    (fd : Option FormData) (l1 l2 : List ValidatorWithSettings) :
    runValidatorsTr nv value store fd (l1 ++ l2) =
      ((runValidatorsTr nv value store fd l1).1 ++ (runValidatorsTr nv value store fd l2).1,
       (runValidatorsTr nv value store fd l1).2 ++ (runValidatorsTr nv value store fd l2).2) := by
  induction l1 with
  | nil => simp [runValidatorsTr]
  | cons v rest ih =>
    by_cases h : nv v.settings.validateWhen fd = false
    · simp [runValidatorsTr, h, ih]
    · by_cases hr : awaitedResult (v.validator value store (buildArgs v.params v.settings.args) fd)
          = JSValue.vBool true
      · simp [runValidatorsTr, h, hr, ih]
      · simp [runValidatorsTr, h, hr, ih]

/-- A throw-free map over a concatenation is the concatenation of the
throw-free maps. -/
theorem mapExcept_append (f : ValidationRuleSettings → Except String (ValidatorWithSettings × List String))
    (l1 l2 : List ValidationRuleSettings) (v1 v2 : List (ValidatorWithSettings × List String))
    (h1 : mapExcept f l1 = Except.ok v1) (h2 : mapExcept f l2 = Except.ok v2) :
    mapExcept f (l1 ++ l2) = Except.ok (v1 ++ v2) := by
  induction l1 generalizing v1 with
  | nil =>
    simp only [mapExcept, Except.ok.injEq] at h1
    subst h1
    simpa using h2
  | cons r rest ih =>
    rw [mapExcept] at h1
    rw [List.cons_append, mapExcept]
    cases hf : f r with
    | error e => rw [hf] at h1; exact absurd h1 (by simp)
    | ok v =>
      rw [hf] at h1
      cases hrest : mapExcept f rest with
      | error e => rw [hrest] at h1; exact absurd h1 (by simp)
      | ok vs =>
        rw [hrest] at h1
        simp only [Except.ok.injEq] at h1
        rw [ih vs hrest]
        simp [← h1]

/-- Closed form of the validator-swapping wiring after n + 1 firings of the
autorun: validator n is current and recorded in oldDataValidator, exactly
the validators 0 .. n-1 are disposed, the factory counter is at n + 1, and
the event trace is eventsUpTo (n + 1). -/
theorem fireN_succ_eq (n : Nat) :
    fireN (n + 1) = { dataValidator := some n, oldDataValidator := some n,
                      disposed := List.range n, nextId := n + 1,
                      events := eventsUpTo (n + 1) } := by
  induction n with
  | zero => rfl
  | succ m ih =>
    show setValidatorEffect (fireN (m + 1)) = _
    rw [ih]
    simp [setValidatorEffect, eventsUpTo, List.range_succ]

/-- C1 (counterexample): the claim that every permutation of the rules
required, minLength, code sorts to the pipeline order required, minLength,
code is false: the permutation minLength, required, code is left as it is,
because the comparator ignores its first argument, returns 0 for the pair
(required, minLength), and a stable sort therefore never moves required
ahead of minLength. -/
theorem byPriority_sort_counterexample :
    jsSort byPriority
        [⟨"minLength", none, none, none⟩, ⟨"required", none, none, none⟩,
         ⟨"code", none, none, none⟩] ≠
      [⟨"required", none, none, none⟩, ⟨"minLength", none, none, none⟩,
       ⟨"code", none, none, none⟩] := by
  decide

/-- C1 (amended): sorting one rule each keyed required, minLength and code
with the byPriority comparator always puts code last, and keeps the input
order of required relative to minLength; the pipeline order required,
minLength, code therefore results exactly for the three permutations in
which required already precedes minLength. -/
theorem byPriority_sort_amended (t1 t2 t3 : Option String) (g1 g2 g3 : Option ArgsObj)
    (w1 w2 w3 : Option Nat) :
    jsSort byPriority
        [⟨"required", t1, g1, w1⟩, ⟨"minLength", t2, g2, w2⟩, ⟨"code", t3, g3, w3⟩] =
      [⟨"required", t1, g1, w1⟩, ⟨"minLength", t2, g2, w2⟩, ⟨"code", t3, g3, w3⟩] ∧
    jsSort byPriority
        [⟨"required", t1, g1, w1⟩, ⟨"code", t3, g3, w3⟩, ⟨"minLength", t2, g2, w2⟩] =
      [⟨"required", t1, g1, w1⟩, ⟨"minLength", t2, g2, w2⟩, ⟨"code", t3, g3, w3⟩] ∧
    jsSort byPriority
        [⟨"code", t3, g3, w3⟩, ⟨"required", t1, g1, w1⟩, ⟨"minLength", t2, g2, w2⟩] =
      [⟨"required", t1, g1, w1⟩, ⟨"minLength", t2, g2, w2⟩, ⟨"code", t3, g3, w3⟩] ∧
    jsSort byPriority
        [⟨"minLength", t2, g2, w2⟩, ⟨"required", t1, g1, w1⟩, ⟨"code", t3, g3, w3⟩] =
      [⟨"minLength", t2, g2, w2⟩, ⟨"required", t1, g1, w1⟩, ⟨"code", t3, g3, w3⟩] ∧
    jsSort byPriority
        [⟨"minLength", t2, g2, w2⟩, ⟨"code", t3, g3, w3⟩, ⟨"required", t1, g1, w1⟩] =
      [⟨"minLength", t2, g2, w2⟩, ⟨"required", t1, g1, w1⟩, ⟨"code", t3, g3, w3⟩] ∧
    jsSort byPriority
        [⟨"code", t3, g3, w3⟩, ⟨"minLength", t2, g2, w2⟩, ⟨"required", t1, g1, w1⟩] =
      [⟨"minLength", t2, g2, w2⟩, ⟨"required", t1, g1, w1⟩, ⟨"code", t3, g3, w3⟩] := by
  refine ⟨rfl, rfl, rfl, rfl, rfl, rfl⟩

/-- C2 (counterexample): the claim that a rule whose key is absent from the
registry it is looked up in never throws is false for the built-in path: an
untyped rule looked up in an empty built-in registry throws a TypeError,
because the source reads definition.validatorFactory without checking that
the definition exists. -/
theorem unresolvable_builtin_throws :
    toValidator emptyRules ⟨"someRule", none, none, none⟩ =
      Except.error "TypeError: cannot read validatorFactory of undefined, key: someRule" := rfl

/-- C2 (amended): a rule of type custom whose key the custom registry does
not resolve never throws: it resolves to the no-op validator with exactly
one console warning, and a rule list containing it still resolves every
other rule; the untyped path, by contrast, throws on a missing built-in key
(see the counterexample). -/
theorem unresolvable_rule_amended (vr : FormViewerValidationRules)
    (rule : ValidationRuleSettings)
    (hty : rule.type = some "custom")
    (hmiss : vr.custom.bind (fun reg => reg rule.key) = none) :
    toValidator vr rule =
      Except.ok ({ settings := rule, validator := noOpValidator, params := none },
                 [cannotFindRuleWarning rule]) ∧
    ∀ pre post rpre rpost,
      mapExcept (toValidator vr) pre = Except.ok rpre →
      mapExcept (toValidator vr) post = Except.ok rpost →
      mapExcept (toValidator vr) (pre ++ rule :: post) =
        Except.ok (rpre ++ ({ settings := rule, validator := noOpValidator, params := none },
                            [cannotFindRuleWarning rule]) :: rpost) := by
  have hres : toValidator vr rule =
      Except.ok ({ settings := rule, validator := noOpValidator, params := none },
                 [cannotFindRuleWarning rule]) := by
    simp [toValidator, hty, jsFalsyStr, hmiss]
  refine ⟨hres, ?_⟩
  intro pre post rpre rpost hpre hpost
  have hcons : mapExcept (toValidator vr) (rule :: post) =
      Except.ok (({ settings := rule, validator := noOpValidator, params := none },
                  [cannotFindRuleWarning rule]) :: rpost) := by
    rw [mapExcept, hres, hpost]
  exact mapExcept_append (toValidator vr) pre (rule :: post) rpre _ hpre hcons

/-- C2 (witness): in the sample registries, resolving the list containing
the unresolvable custom rule between two resolvable built-in rules yields
the no-op pairing with one warning for it and resolves both neighbours. -/
theorem unresolvable_rule_amended_witness :
    mapExcept (toValidator sampleRegistry) ([requiredRule] ++ missingCustomRule :: [requiredRule]) =
      Except.ok ([({ settings := requiredRule, validator := noOpValidator, params := none }, [])] ++
                 ({ settings := missingCustomRule, validator := noOpValidator, params := none },
                  [cannotFindRuleWarning missingCustomRule]) ::
                 [({ settings := requiredRule, validator := noOpValidator, params := none }, [])]) :=
  (unresolvable_rule_amended sampleRegistry missingCustomRule rfl rfl).2
    [requiredRule] [requiredRule] _ _ rfl rfl

/-- C3 (counterexample): the claim that a second dispose() call does not run
the disposers effects a second time is false: dispose() has no idempotency
guard, so the second call re-invokes every registered disposer, and in
particular this.dataValidator?.dispose() is called a second time. -/
theorem dispose_second_call_reinvokes :
    (fieldDispose (fieldDispose freshDisposeState)).validatorDisposeCalls = 2 ∧
    (fieldDispose freshDisposeState).validatorDisposeCalls = 1 ∧
    (fieldDispose (fieldDispose freshDisposeState)).autorunDisposerCalls = 2 := by
  decide

/-- C3 (amended): one dispose() call invokes every registered disposer
exactly once (each call counter rises by one) and never throws (the
function is total); a second call re-invokes every disposer, upon which the
two MobX subscription teardowns do not run again (their disposers are
idempotent) but the data validator dispose call is made a second time. -/
theorem dispose_amended (s : DisposeState) :
    ((fieldDispose s).autorunDisposerCalls = s.autorunDisposerCalls + 1 ∧
     (fieldDispose s).validatorDisposeCalls = s.validatorDisposeCalls + 1 ∧
     (fieldDispose s).reactionDisposerCalls = s.reactionDisposerCalls + 1) ∧
    ((fieldDispose (fieldDispose s)).autorunTeardowns = (fieldDispose s).autorunTeardowns ∧
     (fieldDispose (fieldDispose s)).reactionTeardowns = (fieldDispose s).reactionTeardowns) ∧
    (fieldDispose (fieldDispose s)).validatorDisposeCalls = s.validatorDisposeCalls + 2 := by
  cases s with
  | mk ac al atd vd rc rl rtd =>
    cases al <;> cases rl <;>
      simp [fieldDispose, callAutorunDisposer, callValidatorDisposer, callReactionDisposer]

/-- C4: after every firing of the validator-recreating autorun, validator n
is current: the event trace shows each firing assigns the new validator
strictly before the untracked disposal of the previous one (VEvent.assign k
precedes VEvent.untrackedDispose (k - 1) in eventsUpTo), exactly the
previously created validators are disposed, and the current one never is. -/
theorem validator_swap_invariant (n : Nat) :
    (fireN (n + 1)).dataValidator = some n ∧
    (fireN (n + 1)).disposed = List.range n ∧
    n ∉ (fireN (n + 1)).disposed ∧
    (fireN (n + 1)).events = eventsUpTo (n + 1) := by
  rw [fireN_succ_eq n]
  refine ⟨rfl, rfl, ?_, rfl⟩
  simp [List.mem_range]

/-- C5: the produced validation function resolves to undefined (none) when
the schema is absent or declares no rules, and otherwise resolves to some
complete list: the filterMap of the per-rule outcome over the whole
resolved pipeline, so every rule is evaluated, failures accumulate in
order, and the result is never undefined. -/
theorem resolverRun_spec (nv : NeedValidateFn) (vr : FormViewerValidationRules)
    (value : JSValue) (store : Store) (fd : Option FormData) :
    resolverRun nv vr none value store fd = Except.ok (none, []) ∧
    (∀ s : BoundValueSchema, s.validations = none ∨ s.validations = some [] →
        resolverRun nv vr (some s) value store fd = Except.ok (none, [])) ∧
    (∀ schema resolved, parse vr schema = Except.ok (some resolved) →
        resolverRun nv vr schema value store fd =
          Except.ok (some ((resolved.map Prod.fst).filterMap (ruleOutcome nv value store fd)),
                     (resolved.map Prod.snd).flatten)) := by
  refine ⟨rfl, ?_, ?_⟩
  · rintro s (h | h) <;> simp [resolverRun, parse, h]
  · intro schema resolved h
    rw [resolverRun, h]
    simp [runValidators_eq_filterMap]

/-- C5 (witness): a schema with no validations list makes the produced
function resolve to undefined. -/
theorem resolverRun_spec_witness :
    resolverRun (fun _ _ => true) sampleRegistry (some ⟨none⟩) (JSValue.vNum 0) 0 none =
      Except.ok (none, []) :=
  (resolverRun_spec (fun _ _ => true) sampleRegistry (JSValue.vNum 0) 0 none).2.1
    ⟨none⟩ (Or.inl rfl)

/-- C6: for a rule that is not skipped, the validator sees the argument
object in which every key reads as the last explicit argument if one was
given and otherwise as the declared default (only defaults that are
defined), and when the awaited result is not exactly true the recorded
ValidationResult carries the result itself if it is a string and the
message argument otherwise. -/
theorem args_overlay_message_spec (nv : NeedValidateFn) (value : JSValue) (store : Store)
    (fd : Option FormData) (v : ValidatorWithSettings) (k : String)
    (hneed : nv v.settings.validateWhen fd = true) :
    objGet (buildArgs v.params v.settings.args) k =
      jsOr (lastAssigned (v.settings.args.getD []) k)
           (lastAssigned (defaultsEntries v.params) k) ∧
    ruleOutcome nv value store fd v =
      (let args := buildArgs v.params v.settings.args
       let r := awaitedResult (v.validator value store args fd)
       if r = JSValue.vBool true then none
       else some { settings := v.settings,
                   message := if r.typeof = "string" then r
                              else (objGet args "message").getD JSValue.undef }) := by
  refine ⟨objGet_buildArgs v.params v.settings.args k, ?_⟩
  simp [ruleOutcome, hneed]

/-- C6 (witness): with a declared message default and an explicit message
argument, the argument object reads the explicit one for the key message. -/
theorem args_overlay_message_witness :
    objGet (buildArgs overlayVws.params overlayVws.settings.args) "message" =
      jsOr (lastAssigned ((overlayVws.settings.args).getD []) "message")
           (lastAssigned (defaultsEntries overlayVws.params) "message") :=
  (args_overlay_message_spec (fun _ _ => true) (JSValue.vNum 0) 0 none overlayVws
    "message" rfl).1

/-- C7: a rule whose validateWhen predicate evaluates to false against the
current form data is skipped entirely: the produced results of the list
around it are exactly those of the other rules, and the instrumented trace
shows its validator is never invoked, even though its validator would fail
if it were (the rule is arbitrary). -/
theorem validateWhen_false_skips (nv : NeedValidateFn) (value : JSValue) (store : Store)
    (fd : Option FormData) (v : ValidatorWithSettings) (pre post : List ValidatorWithSettings)
    (h : nv v.settings.validateWhen fd = false) :
    runValidators nv value store fd (pre ++ v :: post) =
      runValidators nv value store fd pre ++ runValidators nv value store fd post ∧
    runValidatorsTr nv value store fd (pre ++ v :: post) =
      ((runValidatorsTr nv value store fd pre).1 ++ (runValidatorsTr nv value store fd post).1,
       (runValidatorsTr nv value store fd pre).2 ++ (runValidatorsTr nv value store fd post).2) := by
  have hskip : runValidatorsTr nv value store fd (v :: post) =
      runValidatorsTr nv value store fd post := by
    simp [runValidatorsTr, h]
  constructor
  · rw [runValidators_eq_filterMap, runValidators_eq_filterMap, runValidators_eq_filterMap,
        List.filterMap_append, List.filterMap_cons]
    simp [ruleOutcome, h]
  · rw [runValidatorsTr_append nv value store fd pre (v :: post), hskip]

/-- C7 (witness): the failing rule guarded by descriptor 7 contributes
nothing when needValidate skips that descriptor. -/
theorem validateWhen_false_skips_witness :
    runValidators nvSkipSeven (JSValue.vNum 0) 0 none ([passingVws] ++ skippedVws :: [passingVws]) =
      runValidators nvSkipSeven (JSValue.vNum 0) 0 none [passingVws] ++
        runValidators nvSkipSeven (JSValue.vNum 0) 0 none [passingVws] :=
  (validateWhen_false_skips nvSkipSeven (JSValue.vNum 0) 0 none skippedVws
    [passingVws] [passingVws] rfl).1

/-- C8: setError stores a string, normalizes undefined and null to an
undefined error, and throws for every other runtime value, so the stored
error is always either a string or undefined. -/
theorem setError_spec (v : JSValue) :
    (∀ s, v = JSValue.vStr s → setError v = Except.ok (some s)) ∧
    (v = JSValue.undef ∨ v = JSValue.vNull → setError v = Except.ok none) ∧
    ((∀ s, v ≠ JSValue.vStr s) → v ≠ JSValue.undef → v ≠ JSValue.vNull →
      setError v = Except.error ("Expected string or undefined or null type, got " ++ v.typeof)) := by
  refine ⟨?_, ?_, ?_⟩
  · rintro s rfl; rfl
  · rintro (rfl | rfl) <;> rfl
  · intro hs hu hn
    cases v with
    | vStr s => exact absurd rfl (hs s)
    | undef => exact absurd rfl hu
    | vNull => exact absurd rfl hn
    | vBool b => rfl
    | vNum n => rfl
    | vObj id => rfl

/-- C8 (witness): setError stores "x", normalizes null, and throws on the
number 42. -/
theorem setError_spec_witness :
    setError (JSValue.vStr "x") = Except.ok (some "x") ∧
    setError JSValue.vNull = Except.ok none ∧
    setError (JSValue.vNum 42) =
      Except.error ("Expected string or undefined or null type, got " ++ (JSValue.vNum 42).typeof) :=
  ⟨(setError_spec (JSValue.vStr "x")).1 "x" rfl,
   (setError_spec JSValue.vNull).2.1 (Or.inr rfl),
   (setError_spec (JSValue.vNum 42)).2.2 (fun _ h => JSValue.noConfusion h)
     (fun h => JSValue.noConfusion h) (fun h => JSValue.noConfusion h)⟩

/-- C9 (counterexample): the claim that construction succeeds whenever the
bound key and the value type are present is false: a model whose valued is
the present but empty string still throws, because the guard tests
JavaScript truthiness, not presence. -/
theorem construct_field_counterexample :
    constructSimpleField ⟨some "", some "number"⟩ = Except.error "model.valued is falsy" := rfl

/-- C9 (amended): construction throws synchronously when the bound key is
absent or empty (first) or the value type is absent or empty (second), with
the trace showing no reactive wiring or value seeding is reached; when both
are present and non-empty, construction passes both guards and performs the
wiring and seeding. -/
theorem construct_field_amended (m : Model) :
    (jsFalsyStr m.valued = true →
      constructSimpleField m = Except.error "model.valued is falsy" ∧
      ctorTrace m = [CtorStep.checkValued]) ∧
    (jsFalsyStr m.valued = false → jsFalsyStr m.valueType = true →
      constructSimpleField m = Except.error "model.typeOfValue is undefined" ∧
      ctorTrace m = [CtorStep.checkValued, CtorStep.checkValueType]) ∧
    (jsFalsyStr m.valued = false → jsFalsyStr m.valueType = false →
      constructSimpleField m = Except.ok ⟨m.valued.getD "", m.valueType.getD ""⟩ ∧
      ctorTrace m = [CtorStep.checkValued, CtorStep.checkValueType, CtorStep.makeObservable,
                     CtorStep.seedValue, CtorStep.registerDisposers]) := by
  refine ⟨?_, ?_, ?_⟩
  · intro h1
    constructor <;> simp [constructSimpleField, ctorTrace, h1]
  · intro h1 h2
    constructor <;> simp [constructSimpleField, ctorTrace, h1, h2]
  · intro h1 h2
    constructor <;> simp [constructSimpleField, ctorTrace, h1, h2]

/-- C9 (witness): with both fields present and non-empty, construction
succeeds and the full constructor trace runs. -/
theorem construct_field_amended_witness :
    constructSimpleField ⟨some "age", some "number"⟩ = Except.ok ⟨"age", "number"⟩ ∧
    ctorTrace ⟨some "age", some "number"⟩ =
      [CtorStep.checkValued, CtorStep.checkValueType, CtorStep.makeObservable,
       CtorStep.seedValue, CtorStep.registerDisposers] :=
  (construct_field_amended ⟨some "age", some "number"⟩).2.2 rfl rfl

/-- C10 (counterexample): the claim that a rule with a defined type other
than custom never consults a registry, always warns and can never
contribute a ValidationResult is false: a rule whose type is the empty
string (defined and different from custom) is treated as untyped because
the source tests truthiness, so it is resolved from the built-in registry
with no warning, and here it contributes a failure. -/
theorem typed_rule_counterexample :
    resolverRun (fun _ _ => true) vrLimit (some ⟨some [emptyTypeRule]⟩) (JSValue.vNum 0) 0 none =
      Except.ok (some [{ settings := emptyTypeRule, message := JSValue.vStr "always fails" }],
                 []) := rfl

/-- C10 (amended): a rule whose type is defined, non-empty and different
from custom consults neither registry: it resolves to the no-op validator
with exactly one warning, and the resulting pairing never contributes a
ValidationResult, for any needValidate, value, store or form data. -/
theorem typed_rule_noop_amended (vr : FormViewerValidationRules)
    (rule : ValidationRuleSettings) (t : String)
    (hty : rule.type = some t) (hne : t ≠ "") (hnc : t ≠ "custom") :
    toValidator vr rule =
      Except.ok ({ settings := rule, validator := noOpValidator, params := none },
                 [cannotFindRuleWarning rule]) ∧
    ∀ nv value store fd,
      ruleOutcome nv value store fd
        { settings := rule, validator := noOpValidator, params := none } = none := by
  constructor
  · simp [toValidator, hty, jsFalsyStr, hne, hnc]
  · intro nv value store fd
    by_cases h : nv rule.validateWhen fd = false
    · simp [ruleOutcome, h]
    · simp [ruleOutcome, h, noOpValidator, awaitedResult]

/-- C10 (witness): the rule with type server resolves to the warned no-op
pairing in the sample registries and contributes no result. -/
theorem typed_rule_noop_witness :
    toValidator sampleRegistry otherTypeRule =
      Except.ok ({ settings := otherTypeRule, validator := noOpValidator, params := none },
                 [cannotFindRuleWarning otherTypeRule]) ∧
    ruleOutcome (fun _ _ => true) (JSValue.vNum 0) 0 none
        { settings := otherTypeRule, validator := noOpValidator, params := none } = none := by
  have h := typed_rule_noop_amended sampleRegistry otherTypeRule "server" rfl
    (by decide) (by decide)
  exact ⟨h.1, h.2 (fun _ _ => true) (JSValue.vNum 0) 0 none⟩

end FormEngine
